import Mathlib

/-!
Verification of the `insights/combiners/ipcs_shm.py` combiner.

The Python source builds, from three already-parsed inputs, a registry of
shared-memory segments (`IpcsShmSegs`), one record (`IpcsShmSeg`) per segment
identifier, and exposes counting / listing / lookup queries.

The source file is an incompletely renamed copy (semaphores renamed to
shared-memory segments) and contains naming slips that its own module
docstring and examples contradict: the loop-local `data` is never bound, the
constructor stores into `self._all_sems` / `self._orphan_sems` although it
initialised `self._all_shms` / `self._orphan_shms`, it calls the undefined
`IpcsSemaphore` (the record class is `IpcsShmSeg`), indexes with the unbound
`semid`, and `orphan_sems` reads `sem.semid` although records carry `shmid`.

Two embeddings are given:

* `IpcsShmSegs.build` resolves exactly these naming slips, in the only
  consistent way (`data` a fresh dict per iteration, `_all_shms ≡ _all_sems`,
  `_orphan_shms ≡ _orphan_sems`, `IpcsSemaphore ≡ IpcsShmSeg`,
  `semid ≡ shm.shmid`), and changes nothing else.  In particular the loop
  still copies only `shmid`, `bytes` and `is_orphan` into the record, so a
  record's `owner`, `cpid` and `lpid` keep their `None` defaults, and
  `b_size.isdigit()` still raises `AttributeError` when a size record has no
  `bytes` field (`dict.get` returned `None`).
* `IpcsShmSegs.buildLiteral` keeps the literal Python semantics of the
  constructor as written, where the first statement of the loop body,
  `data['shmid'] = shm.shmid`, reads the unbound local `data` and raises
  `NameError` on the first iteration.

Python exceptions are modelled with `Except PyErr`; `None` with `Option`;
Python dictionaries with association lists whose insertion replaces an
existing key in place (CPython keeps the original insertion position).
-/

/-- A Python exception as far as this module can raise one. -/
inductive PyErr where
  | nameError
  | attributeError
deriving DecidableEq, Repr

instance {ε α : Type} [DecidableEq ε] [DecidableEq α] : DecidableEq (Except ε α) :=
  fun a b =>
    match a, b with
    | .ok x, .ok y =>
        if h : x = y then .isTrue (by rw [h]) else
          .isFalse (fun hc => h (Except.ok.inj hc))
    | .ok _, .error _ => .isFalse (fun hc => Except.noConfusion hc)
    | .error _, .ok _ => .isFalse (fun hc => Except.noConfusion hc)
    | .error e, .error f =>
        if h : e = f then .isTrue (by rw [h]) else
          .isFalse (fun hc => h (Except.error.inj hc))

/-- Lookup in a Python dict modelled as an association list: the value stored
at the first (for a real dict: only) occurrence of the key. -/
def dictGet {α : Type} : List (String × α) → String → Option α
  | [], _ => none
  | kv :: rest, k => if kv.1 = k then some kv.2 else dictGet rest k

/-- `d[k] = v` on a Python dict: replace the value at an existing key in
place (CPython keeps the key's original position), else append the new pair. -/
def dictInsert {α : Type} : List (String × α) → String → α → List (String × α)
  | [], k, v => [(k, v)]
  | kv :: rest, k, v => if kv.1 = k then (k, v) :: rest else kv :: dictInsert rest k v

/-- The keys of a Python dict modelled as an association list. -/
def dictKeys {α : Type} (d : List (String × α)) : List String :=
  d.map Prod.fst

/-- One record of the `ipcs -mp` process source (`IpcsSI`-shaped input): the
constructor reads `shm.shmid`, `shm.cpid` and `shm.lpid`; the `owner` column
is carried by the source but never read by the constructor. -/
structure ShmEntry where
  shmid : String
  owner : String
  cpid : String
  lpid : String
deriving DecidableEq, Repr

/-- The `IpcsShmSeg` record class.  Its `__init__` sets the defaults
`shmid = None`, `owner = None`, `bytes = 0`, `is_orphan = False`,
`lpid = None`, `cpid = None` and then copies every key of the `data` dict
onto the object.  The constructor's `data` dict always carries exactly the
keys `shmid`, `bytes` and `is_orphan`, so those three fields are always
overwritten (hence `shmid` is modelled as a plain `String`) while `owner`,
`lpid` and `cpid` always keep their `None` default. -/
structure IpcsShmSeg where
  shmid : String
  owner : Option String
  bytes : Int
  is_orphan : Bool
  lpid : Option String
  cpid : Option String
deriving DecidableEq, Repr

/-- Python `str.isdigit` on the ASCII strings this data contains: true iff
the string is non-empty and every character is a decimal digit. -/
def pyIsdigit (s : String) : Bool :=
  !s.data.isEmpty && s.data.all Char.isDigit

/-- Python `int(s)` on a string accepted by `str.isdigit`: the base-10 value
of the digit string (as a Python `int`, hence `Int`). -/
def pyIntOfDigits (s : String) : Int :=
  ((s.data.foldl (fun n c => n * 10 + (c.toNat - 48)) 0 : Nat) : Int)

/-- Python truthiness of an optional-string argument with default `None`:
`if owner:` is false exactly for `None` and for the empty string. -/
def pyTruthy : Option String → Bool
  | none => false
  | some s => decide (s ≠ "")

/-- The size-resolution step of the constructor loop for one identifier:

    data['bytes'] = 0
    if shm.shmid in ipcs_m:
        b_size = ipcs_m[shm.shmid].get('bytes')
        data['bytes'] = int(b_size) if b_size.isdigit() else 0

The size source `ipcs_m` maps an identifier to the value of its record's
`bytes` field (`none` models a size record without a `bytes` key, so that
`dict.get` returns `None` and `b_size.isdigit()` raises `AttributeError`). -/
def shmBytes (ipcs_m : List (String × Option String)) (shmid : String) :
    Except PyErr Int :=
  match dictGet ipcs_m shmid with
  | none => .ok 0
  | some none => .error .attributeError
  | some (some b_size) => .ok (if pyIsdigit b_size then pyIntOfDigits b_size else 0)

/-- One iteration of the constructor loop (naming slips resolved as described
in the header): resolve the size, then set

    is_orphan = False
    if all(p not in pids for p in (shm.cpid, shm.lpid)):
        is_orphan = True

and build the record from the `data` dict (keys `shmid`, `bytes`,
`is_orphan`; all other fields keep their `None` defaults). -/
def processShm (ipcs_m : List (String × Option String)) (pids : List String)
    (shm : ShmEntry) : Except PyErr IpcsShmSeg :=
  match shmBytes ipcs_m shm.shmid with
  | .error e => .error e
  | .ok b =>
      .ok (IpcsShmSeg.mk shm.shmid none b
        (decide (shm.cpid ∉ pids) && decide (shm.lpid ∉ pids)) none none)

/-- The constructor loop over the whole process source, stopping at the first
raised exception (the Python loop aborts the constructor there). -/
def processAll (ipcs_m : List (String × Option String)) (pids : List String) :
    List ShmEntry → Except PyErr (List IpcsShmSeg)
  | [] => .ok []
  | shm :: rest =>
      match processShm ipcs_m pids shm with
      | .error e => .error e
      | .ok rec =>
          match processAll ipcs_m pids rest with
          | .error e => .error e
          | .ok recs => .ok (rec :: recs)

/-- The `IpcsShmSegs` registry: the complete keyed set `_all_sems` and the
orphan view `_orphan_sems`, as populated by the constructor. -/
structure IpcsShmSegs where
  _all_sems : List (String × IpcsShmSeg)
  _orphan_sems : List IpcsShmSeg
deriving DecidableEq, Repr

/-- `IpcsShmSegs.__init__` with the naming slips resolved: process every
entry of the process source in order; on success insert each record into the
keyed set under its identifier (`self._all_sems[shm.shmid] = sem_obj`, a
duplicate identifier overwriting the earlier value) and append the orphan
ones, in encounter order, to the orphan view.  `pids` is the output of
`ps.running_pids()`.  Folding the insertions after `processAll` is equivalent
to the interleaved loop: an exception aborts the whole constructor, and the
loop raises exactly the first exception `processAll` reports. -/
def IpcsShmSegs.build (ipcs_m : List (String × Option String))
    (ipcs_mp : List ShmEntry) (pids : List String) : Except PyErr IpcsShmSegs :=
  match processAll ipcs_m pids ipcs_mp with
  | .error e => .error e
  | .ok recs =>
      .ok (IpcsShmSegs.mk
        (recs.foldl (fun d rec => dictInsert d rec.shmid rec) [])
        (recs.filter (fun rec => rec.is_orphan)))

/-- The attributes `IpcsShmSegs.__init__` actually initialises before the
loop (`self._all_shms = {}` and `self._orphan_shms = []`). -/
structure IpcsShmSegsLiteral where
  _all_shms : List (String × IpcsShmSeg)
  _orphan_shms : List IpcsShmSeg
deriving DecidableEq, Repr

/-- Literal semantics of `IpcsShmSegs.__init__` as written in the source.
The local `data` is never bound, so the loop body's first statement
`data['shmid'] = shm.shmid` reads an unbound local and raises `NameError` on
the first iteration; with an empty process source the loop body never runs
and construction succeeds with both views empty.  (Control never reaches the
later slips: `IpcsSemaphore(data)` and `self._all_sems[semid] = sem_obj`
would raise `NameError` for `IpcsSemaphore` and `semid` as well, and
`self._all_sems` / `self._orphan_sems` are never initialised.) -/
def IpcsShmSegs.buildLiteral (ipcs_m : List (String × Option String))
    (ipcs_mp : List ShmEntry) (pids : List String) :
    Except PyErr IpcsShmSegsLiteral :=
  match ipcs_m, pids, ipcs_mp with
  | _, _, [] => .ok (IpcsShmSegsLiteral.mk [] [])
  | _, _, _ :: _ => .error .nameError

/-- `count_of_all_sems`: with a truthy `owner`, count the records of the
complete set whose `owner` attribute equals it; otherwise the size of the
complete set.  `none` models an omitted argument (Python default `None`). -/
def IpcsShmSegs.count_of_all_sems (self : IpcsShmSegs)
    (owner : Option String) : Nat :=
  if pyTruthy owner then
    (self._all_sems.filter (fun kv => kv.2.owner == owner)).length
  else
    self._all_sems.length

/-- `count_of_orphan_sems`: as `count_of_all_sems`, over the orphan view. -/
def IpcsShmSegs.count_of_orphan_sems (self : IpcsShmSegs)
    (owner : Option String) : Nat :=
  if pyTruthy owner then
    (self._orphan_sems.filter (fun sem => sem.owner == owner)).length
  else
    self._orphan_sems.length

/-- `orphan_sems`: the identifiers of the orphan view in order, with a truthy
`owner` restricted to the records whose `owner` attribute equals it (the
returned `sem.semid` is the `sem.shmid` naming slip resolved). -/
def IpcsShmSegs.orphan_sems (self : IpcsShmSegs)
    (owner : Option String) : List String :=
  if pyTruthy owner then
    ((self._orphan_sems.filter (fun sem => sem.owner == owner)).map
      (fun sem => sem.shmid))
  else
    self._orphan_sems.map (fun sem => sem.shmid)

/-- `get_sem`: `self._all_sems.get(semid)`, the record stored under the
identifier, or `None` when the identifier is unknown. -/
def IpcsShmSegs.get_sem (self : IpcsShmSegs) (semid : String) :
    Option IpcsShmSeg :=
  dictGet self._all_sems semid

/-- `__iter__`: the records of the complete keyed set, in the dict's
(insertion) order. -/
def IpcsShmSegs.iterSems (self : IpcsShmSegs) : List IpcsShmSeg :=
  self._all_sems.map Prod.snd

/-- The size source of the spec's worked scenario. -/
def sizeScenario : List (String × Option String) :=
  [("65536", some "1024"), ("65537", some "bad")]

/-- The process source of the spec's worked scenario. -/
def srcScenario : List ShmEntry :=
  [ShmEntry.mk "65536" "apache" "0" "0",
   ShmEntry.mk "65537" "apache" "500" "0",
   ShmEntry.mk "65538" "root" "0" "0"]

/-- The live-process set of the spec's worked scenario. -/
def pidsScenario : List String := ["500"]

/-- The records the resolved constructor builds in the worked scenario. -/
def recA : IpcsShmSeg := IpcsShmSeg.mk "65536" none 1024 true none none

/-- Scenario record for identifier 65537 (size field fails to parse, creator
pid live). -/
def recB : IpcsShmSeg := IpcsShmSeg.mk "65537" none 0 false none none

/-- Scenario record for identifier 65538 (no size entry, both pids dead). -/
def recC : IpcsShmSeg := IpcsShmSeg.mk "65538" none 0 true none none

/-- The registry the resolved constructor builds in the worked scenario. -/
def regScenario : IpcsShmSegs :=
  IpcsShmSegs.mk
    [("65536", recA), ("65537", recB), ("65538", recC)]
    [recA, recC]

/-! ### Association-list (Python dict) lemmas -/

theorem dictGet_dictInsert {α : Type} (d : List (String × α)) (k k' : String)
    (v : α) :
    dictGet (dictInsert d k v) k' = if k = k' then some v else dictGet d k' := by
  induction d with
  | nil => simp [dictInsert, dictGet]
  | cons kv rest ih =>
      by_cases h1 : kv.1 = k
      · simp only [dictInsert, if_pos h1, dictGet]
        by_cases h2 : k = k' <;> simp [dictGet, h1, h2]
      · simp only [dictInsert, if_neg h1, dictGet]
        by_cases h2 : kv.1 = k'
        · have h3 : k ≠ k' := fun hc => h1 (hc ▸ h2)
          simp [h2, h3]
        · simp [h2, ih]

theorem mem_dictKeys_dictInsert {α : Type} (d : List (String × α))
    (k x : String) (v : α) :
    x ∈ dictKeys (dictInsert d k v) ↔ x ∈ dictKeys d ∨ x = k := by
  induction d with
  | nil => simp [dictInsert, dictKeys]
  | cons kv rest ih =>
      by_cases h1 : kv.1 = k
      · simp only [dictInsert, if_pos h1, dictKeys, List.map_cons, List.mem_cons]
        rw [h1]
        tauto
      · simp only [dictInsert, if_neg h1, dictKeys, List.map_cons, List.mem_cons]
        rw [show dictKeys (dictInsert rest k v) = (dictInsert rest k v).map Prod.fst from rfl] at ih
        rw [ih]
        tauto

theorem dictKeys_dictInsert_mem {α : Type} (d : List (String × α))
    (k : String) (v : α) (h : k ∈ dictKeys d) :
    dictKeys (dictInsert d k v) = dictKeys d := by
  induction d with
  | nil => simp [dictKeys] at h
  | cons kv rest ih =>
      by_cases h1 : kv.1 = k
      · simp [dictInsert, if_pos h1, dictKeys, h1]
      · simp only [dictKeys, List.map_cons, List.mem_cons] at h
        rcases h with h | h
        · exact absurd h.symm h1
        · have hih := ih h
          simp only [dictKeys] at hih
          simp [dictInsert, if_neg h1, dictKeys, hih]

theorem dictKeys_dictInsert_not_mem {α : Type} (d : List (String × α))
    (k : String) (v : α) (h : k ∉ dictKeys d) :
    dictKeys (dictInsert d k v) = dictKeys d ++ [k] := by
  induction d with
  | nil => simp [dictInsert, dictKeys]
  | cons kv rest ih =>
      simp only [dictKeys, List.map_cons, List.mem_cons] at h
      push_neg at h
      have h1 : kv.1 ≠ k := fun hc => h.1 hc.symm
      have hih := ih h.2
      simp only [dictKeys] at hih
      simp [dictInsert, if_neg h1, dictKeys, hih]

theorem dictGet_none_iff {α : Type} (d : List (String × α)) (k : String) :
    dictGet d k = none ↔ k ∉ dictKeys d := by
  induction d with
  | nil => simp [dictGet, dictKeys]
  | cons kv rest ih =>
      by_cases h1 : kv.1 = k
      · simp [dictGet, h1, dictKeys]
      · have h2 : k ≠ kv.1 := fun hc => h1 hc.symm
        simp [dictGet, h1, dictKeys, ih, h2]

theorem dictGet_some_mem {α : Type} (d : List (String × α)) (k : String)
    (v : α) (h : dictGet d k = some v) : (k, v) ∈ d := by
  induction d with
  | nil => simp [dictGet] at h
  | cons kv rest ih =>
      by_cases h1 : kv.1 = k
      · simp only [dictGet, if_pos h1] at h
        injection h with h
        exact List.mem_cons.mpr (Or.inl (by rw [← h1, ← h]))
      · simp only [dictGet, if_neg h1] at h
        exact List.mem_cons_of_mem _ (ih h)

/-! ### The fold of the constructor's insertions -/

theorem mem_dictKeys_foldl (recs : List IpcsShmSeg)
    (d : List (String × IpcsShmSeg)) (x : String) :
    (x ∈ dictKeys (recs.foldl (fun d rec => dictInsert d rec.shmid rec) d) ↔
      x ∈ dictKeys d ∨ x ∈ recs.map (fun rec => rec.shmid)) := by
  induction recs generalizing d with
  | nil => simp
  | cons r rest ih =>
      simp only [List.foldl_cons, List.map_cons, List.mem_cons]
      rw [ih, mem_dictKeys_dictInsert]
      tauto

theorem nodup_dictKeys_foldl (recs : List IpcsShmSeg)
    (d : List (String × IpcsShmSeg)) (h : (dictKeys d).Nodup) :
    (dictKeys (recs.foldl (fun d rec => dictInsert d rec.shmid rec) d)).Nodup := by
  induction recs generalizing d with
  | nil => exact h
  | cons r rest ih =>
      simp only [List.foldl_cons]
      apply ih
      by_cases hk : r.shmid ∈ dictKeys d
      · rw [dictKeys_dictInsert_mem _ _ _ hk]
        exact h
      · rw [dictKeys_dictInsert_not_mem _ _ _ hk]
        rw [List.nodup_append]
        exact ⟨h, List.nodup_singleton _, by simpa using hk⟩

theorem length_foldl_eq_dedup (recs : List IpcsShmSeg) :
    (recs.foldl (fun d rec => dictInsert d rec.shmid rec) []).length =
      (recs.map (fun rec => rec.shmid)).dedup.length := by
  have h1 : (dictKeys (recs.foldl (fun d rec => dictInsert d rec.shmid rec) [])).Nodup :=
    nodup_dictKeys_foldl recs [] (by simp [dictKeys])
  have h2 : ∀ x, x ∈ dictKeys (recs.foldl (fun d rec => dictInsert d rec.shmid rec) []) ↔
      x ∈ (recs.map (fun rec => rec.shmid)).dedup := by
    intro x
    rw [mem_dictKeys_foldl, List.mem_dedup]
    simp [dictKeys]
  have hperm := (List.perm_ext_iff_of_nodup h1 (List.nodup_dedup _)).2 h2
  have hlen := hperm.length_eq
  calc (recs.foldl (fun d rec => dictInsert d rec.shmid rec) []).length
      = (dictKeys (recs.foldl (fun d rec => dictInsert d rec.shmid rec) [])).length := by
        simp [dictKeys]
    _ = _ := hlen

theorem dictGet_foldl (recs : List IpcsShmSeg)
    (d : List (String × IpcsShmSeg)) (k : String) :
    dictGet (recs.foldl (fun d rec => dictInsert d rec.shmid rec) d) k =
      ((recs.filter (fun rec => rec.shmid == k)).getLast?).elim (dictGet d k) some := by
  induction recs using List.reverseRecOn generalizing d with
  | nil => simp
  | append_singleton rest r ih =>
      rw [List.foldl_append]
      simp only [List.foldl_cons, List.foldl_nil, List.filter_append]
      by_cases hk : r.shmid = k
      · have hf : List.filter (fun rec => rec.shmid == k) [r] = [r] := by
          simp [hk]
        rw [hf, List.getLast?_concat, dictGet_dictInsert, if_pos hk]
        rfl
      · have hf : List.filter (fun rec => rec.shmid == k) [r] = [] := by
          simp [hk]
        rw [hf, List.append_nil, dictGet_dictInsert, if_neg hk]
        exact ih d

/-! ### The size parse against the library base-10 parser -/

theorem pyIsdigit_eq_isNat (s : String) : pyIsdigit s = s.isNat := by
  rw [pyIsdigit, String.isNat, String.all_eq]
  have hemp : s.isEmpty = s.data.isEmpty := by
    by_cases h : s = ""
    · subst h
      rfl
    · have h1 : s.isEmpty = false := by
        rw [Bool.eq_false_iff]
        intro hc
        exact h ((String.isEmpty_iff s).mp hc)
      have h2 : s.data.isEmpty = false := by
        rw [Bool.eq_false_iff]
        intro hc
        apply h
        apply String.ext
        simpa using hc
      rw [h1, h2]
  rw [hemp]

theorem size_parse_eq_toNat? (s : String) :
    (if pyIsdigit s then pyIntOfDigits s else 0) = ((s.toNat?.getD 0 : Nat) : Int) := by
  by_cases h : pyIsdigit s = true
  · rw [if_pos h]
    have hn : s.isNat = true := by rw [← pyIsdigit_eq_isNat]; exact h
    rw [String.toNat?, if_pos hn, Option.getD_some, pyIntOfDigits, String.foldl_eq]
    rfl
  · rw [if_neg h]
    have hn : s.isNat = false := by rw [← pyIsdigit_eq_isNat, Bool.eq_false_iff]; exact h
    rw [String.toNat?, if_neg (by rw [hn]; exact Bool.false_ne_true), Option.getD_none]
    rfl

/-! ### Decomposition of the constructor -/

theorem shmBytes_ok_spec (ipcs_m : List (String × Option String)) (sid : String)
    (b : Int) (h : shmBytes ipcs_m sid = .ok b) :
    0 ≤ b ∧
    (dictGet ipcs_m sid = none → b = 0) ∧
    (∀ s, dictGet ipcs_m sid = some (some s) →
      b = ((s.toNat?.getD 0 : Nat) : Int)) := by
  unfold shmBytes at h
  cases hg : dictGet ipcs_m sid with
  | none =>
      rw [hg] at h
      injection h with h
      subst h
      exact ⟨le_refl 0, fun _ => rfl, fun s hs => Option.noConfusion hs⟩
  | some bopt =>
      cases bopt with
      | none =>
          rw [hg] at h
          exact Except.noConfusion h
      | some s0 =>
          rw [hg] at h
          injection h with h
          subst h
          refine ⟨?_, fun hc => Option.noConfusion hc, fun s hs => ?_⟩
          · by_cases hd : pyIsdigit s0 = true
            · rw [if_pos hd]
              exact Int.natCast_nonneg _
            · rw [if_neg hd]
          · have hss : s0 = s := by
              injection hs with hs2
              injection hs2
            subst hss
            exact size_parse_eq_toNat? s0

theorem processShm_ok_decomp (ipcs_m : List (String × Option String))
    (pids : List String) (shm : ShmEntry) (rec : IpcsShmSeg)
    (h : processShm ipcs_m pids shm = .ok rec) :
    ∃ b : Int, shmBytes ipcs_m shm.shmid = .ok b ∧
      rec = IpcsShmSeg.mk shm.shmid none b
        (decide (shm.cpid ∉ pids) && decide (shm.lpid ∉ pids)) none none := by
  unfold processShm at h
  cases hb : shmBytes ipcs_m shm.shmid with
  | error e =>
      rw [hb] at h
      exact Except.noConfusion h
  | ok b =>
      rw [hb] at h
      injection h with h
      exact ⟨b, rfl, h.symm⟩

theorem processAll_nil (ipcs_m : List (String × Option String))
    (pids : List String) : processAll ipcs_m pids [] = .ok [] := rfl

theorem processAll_cons_ok (ipcs_m : List (String × Option String))
    (pids : List String) (shm : ShmEntry) (rest : List ShmEntry)
    (recs : List IpcsShmSeg)
    (h : processAll ipcs_m pids (shm :: rest) = .ok recs) :
    ∃ rec recs0, processShm ipcs_m pids shm = .ok rec ∧
      processAll ipcs_m pids rest = .ok recs0 ∧ recs = rec :: recs0 := by
  unfold processAll at h
  cases h1 : processShm ipcs_m pids shm with
  | error e =>
      rw [h1] at h
      exact Except.noConfusion h
  | ok rec =>
      rw [h1] at h
      cases h2 : processAll ipcs_m pids rest with
      | error e =>
          rw [h2] at h
          exact Except.noConfusion h
      | ok recs0 =>
          rw [h2] at h
          injection h with h
          exact ⟨rec, recs0, rfl, rfl, h.symm⟩

theorem processAll_map_shmid (ipcs_m : List (String × Option String))
    (pids : List String) (src : List ShmEntry) (recs : List IpcsShmSeg)
    (h : processAll ipcs_m pids src = .ok recs) :
    recs.map (fun rec => rec.shmid) = src.map (fun shm => shm.shmid) := by
  induction src generalizing recs with
  | nil =>
      rw [processAll_nil] at h
      injection h with h
      subst h
      rfl
  | cons shm rest ih =>
      obtain ⟨rec, recs0, h1, h2, h3⟩ := processAll_cons_ok _ _ _ _ _ h
      obtain ⟨b, -, hrec⟩ := processShm_ok_decomp _ _ _ _ h1
      subst h3
      simp only [List.map_cons, ih recs0 h2, hrec]

theorem processAll_owner_none (ipcs_m : List (String × Option String))
    (pids : List String) (src : List ShmEntry) (recs : List IpcsShmSeg)
    (h : processAll ipcs_m pids src = .ok recs) :
    ∀ rec ∈ recs, rec.owner = none := by
  induction src generalizing recs with
  | nil =>
      rw [processAll_nil] at h
      injection h with h
      subst h
      intro rec hrec
      cases hrec
  | cons shm rest ih =>
      obtain ⟨rec, recs0, h1, h2, h3⟩ := processAll_cons_ok _ _ _ _ _ h
      obtain ⟨b, -, hrec⟩ := processShm_ok_decomp _ _ _ _ h1
      subst h3
      intro r hr
      rcases List.mem_cons.mp hr with hr | hr
      · rw [hr, hrec]
      · exact ih recs0 h2 r hr

theorem processAll_orphans (ipcs_m : List (String × Option String))
    (pids : List String) (src : List ShmEntry) (recs : List IpcsShmSeg)
    (h : processAll ipcs_m pids src = .ok recs) :
    (recs.filter (fun rec => rec.is_orphan)).map (fun rec => rec.shmid) =
      ((src.filter (fun shm =>
        decide (shm.cpid ∉ pids) && decide (shm.lpid ∉ pids))).map
          (fun shm => shm.shmid)) := by
  induction src generalizing recs with
  | nil =>
      rw [processAll_nil] at h
      injection h with h
      subst h
      rfl
  | cons shm rest ih =>
      obtain ⟨rec, recs0, h1, h2, h3⟩ := processAll_cons_ok _ _ _ _ _ h
      obtain ⟨b, -, hrec⟩ := processShm_ok_decomp _ _ _ _ h1
      subst h3
      by_cases ho : (decide (shm.cpid ∉ pids) && decide (shm.lpid ∉ pids)) = true
      · have h4 : rec.is_orphan = true := by rw [hrec]; exact ho
        have h5 : rec.shmid = shm.shmid := by rw [hrec]
        simp only [List.filter_cons, h4, ho, if_pos, List.map_cons, h5, ih recs0 h2]
      · have h4 : rec.is_orphan = false := by
          rw [hrec]
          exact Bool.eq_false_iff.mpr ho
        have ho' : (fun shm => decide (shm.cpid ∉ pids) && decide (shm.lpid ∉ pids)) shm = false :=
          Bool.eq_false_iff.mpr ho
        simp only [List.filter_cons, h4, ho', Bool.false_eq_true, if_neg, ih recs0 h2]
        exact ih recs0 h2

theorem build_ok_decomp (ipcs_m : List (String × Option String))
    (src : List ShmEntry) (pids : List String) (r : IpcsShmSegs)
    (h : IpcsShmSegs.build ipcs_m src pids = .ok r) :
    ∃ recs, processAll ipcs_m pids src = .ok recs ∧
      r._all_sems = recs.foldl (fun d rec => dictInsert d rec.shmid rec) [] ∧
      r._orphan_sems = recs.filter (fun rec => rec.is_orphan) := by
  unfold IpcsShmSegs.build at h
  cases hp : processAll ipcs_m pids src with
  | error e =>
      rw [hp] at h
      exact Except.noConfusion h
  | ok recs =>
      rw [hp] at h
      injection h with h
      exact ⟨recs, rfl, by rw [← h], by rw [← h]⟩

/-- A string rejected by `str.isdigit` is not a base-10 numeral. -/
theorem toNat?_eq_none_of_not_isdigit (s : String) (h : pyIsdigit s = false) :
    s.toNat? = none := by
  rw [String.toNat?,
    if_neg (by rw [← pyIsdigit_eq_isNat, h]; exact Bool.false_ne_true)]

/-! ### The claims -/

/-- C1: a record processed during construction has `is_orphan` true iff its
creator pid and its last pid are both absent from the live-process set; a
record with at least one of the two pids live is classified not orphan. -/
theorem c1_orphan_classification (ipcs_m : List (String × Option String))
    (pids : List String) (shm : ShmEntry) (rec : IpcsShmSeg)
    (h : processShm ipcs_m pids shm = .ok rec) :
    (rec.is_orphan = true ↔ (shm.cpid ∉ pids ∧ shm.lpid ∉ pids)) ∧
    ((shm.cpid ∈ pids ∨ shm.lpid ∈ pids) → rec.is_orphan = false) := by
  obtain ⟨b, -, hrec⟩ := processShm_ok_decomp _ _ _ _ h
  subst hrec
  constructor
  · simp
  · intro hc
    rcases hc with hc | hc <;> simp [hc]

/-- C1 witness: in the worked scenario, the record for identifier 65538
(creator pid `"0"`, last pid `"0"`, live set `{"500"}`) is orphan. -/
theorem c1_orphan_classification_witness :
    (IpcsShmSeg.mk "65538" none 0 true none none).is_orphan = true :=
  (c1_orphan_classification sizeScenario pidsScenario
    (ShmEntry.mk "65538" "root" "0" "0")
    (IpcsShmSeg.mk "65538" none 0 true none none) (by decide)).1.mpr (by decide)

/-- C2: a record's `bytes` is non-negative; it is `0` when the size source
has no entry for the identifier; when the entry's size field is present, the
stored value is the field's base-10 parse when it is a non-negative integer
literal (`String.toNat?` succeeds) and `0` when it fails to parse. -/
theorem c2_size_resolution (ipcs_m : List (String × Option String))
    (pids : List String) (shm : ShmEntry) (rec : IpcsShmSeg)
    (h : processShm ipcs_m pids shm = .ok rec) :
    0 ≤ rec.bytes ∧
    (dictGet ipcs_m shm.shmid = none → rec.bytes = 0) ∧
    (∀ s n, dictGet ipcs_m shm.shmid = some (some s) → s.toNat? = some n →
      rec.bytes = (n : Int)) ∧
    (∀ s, dictGet ipcs_m shm.shmid = some (some s) → s.toNat? = none →
      rec.bytes = 0) := by
  obtain ⟨b, hb, hrec⟩ := processShm_ok_decomp _ _ _ _ h
  obtain ⟨hb0, hbnone, hbsome⟩ := shmBytes_ok_spec _ _ _ hb
  subst hrec
  refine ⟨hb0, hbnone, ?_, ?_⟩
  · intro s n hs hn
    rw [show (IpcsShmSeg.mk shm.shmid none b
      (decide (shm.cpid ∉ pids) && decide (shm.lpid ∉ pids)) none none).bytes = b
      from rfl, hbsome s hs, hn]
    rfl
  · intro s hs hn
    rw [show (IpcsShmSeg.mk shm.shmid none b
      (decide (shm.cpid ∉ pids) && decide (shm.lpid ∉ pids)) none none).bytes = b
      from rfl, hbsome s hs, hn]
    rfl

/-- C2 witness: in the worked scenario the record for 65537 has a size entry
whose field `"bad"` fails to parse, and its stored size is `0` (and
non-negative). -/
theorem c2_size_resolution_witness : 0 ≤ recB.bytes ∧ recB.bytes = 0 :=
  ⟨(c2_size_resolution sizeScenario pidsScenario
      (ShmEntry.mk "65537" "apache" "500" "0") recB (by decide)).1,
   (c2_size_resolution sizeScenario pidsScenario
      (ShmEntry.mk "65537" "apache" "500" "0") recB (by decide)).2.2.2 "bad"
    (by decide) (toNat?_eq_none_of_not_isdigit "bad" (by decide))⟩

/-- C3: for a successfully built registry, `count_of_all_sems()` equals the
number of distinct identifiers in the process source, and the complete keyed
set is last-write-wins: the record stored under an identifier is the last
record processed with that identifier (so duplicates overwrite the earlier
entry). -/
theorem c3_count_all_distinct (ipcs_m : List (String × Option String))
    (src : List ShmEntry) (pids : List String) (r : IpcsShmSegs)
    (recs : List IpcsShmSeg)
    (h : IpcsShmSegs.build ipcs_m src pids = .ok r)
    (hrecs : processAll ipcs_m pids src = .ok recs) :
    r.count_of_all_sems none = ((src.map (fun shm => shm.shmid)).dedup).length ∧
    (∀ k, r.get_sem k = (recs.filter (fun rec => rec.shmid == k)).getLast?) := by
  obtain ⟨recs0, hr0, hall, -⟩ := build_ok_decomp _ _ _ _ h
  rw [hr0] at hrecs
  injection hrecs with he
  subst he
  constructor
  · have hc : r.count_of_all_sems none = r._all_sems.length := by
      simp [IpcsShmSegs.count_of_all_sems, pyTruthy]
    rw [hc, hall, length_foldl_eq_dedup, processAll_map_shmid _ _ _ _ hr0]
  · intro k
    rw [show r.get_sem k = dictGet r._all_sems k from rfl, hall, dictGet_foldl]
    cases hl : (recs0.filter (fun rec => rec.shmid == k)).getLast? <;>
      simp [dictGet]

/-- C3 witness at the worked scenario. -/
theorem c3_count_all_distinct_witness :
    regScenario.count_of_all_sems none =
      ((srcScenario.map (fun shm => shm.shmid)).dedup).length :=
  (c3_count_all_distinct sizeScenario srcScenario pidsScenario regScenario
    [recA, recB, recC] (by decide) (by decide)).1

/-- C4: contrary to the claim, construction is not total.  As written,
`IpcsShmSegs.__init__` raises `NameError` on any non-empty process source
(the loop-local `data` is never bound); and even with the naming slips
resolved, a size record whose `bytes` field is missing makes
`b_size.isdigit()` raise `AttributeError` instead of degrading to `0`. -/
theorem c4_construction_raises :
    IpcsShmSegs.buildLiteral sizeScenario srcScenario pidsScenario =
      .error PyErr.nameError ∧
    IpcsShmSegs.build [("65536", none)] [ShmEntry.mk "65536" "apache" "0" "0"]
      [] = .error PyErr.attributeError :=
  ⟨by decide, by decide⟩

/-- C5: the worked scenario under the resolved constructor.  The unfiltered
values match the claim (`countAll()==3`, `countOrphans()==2`,
`orphanIds()==["65536","65538"]`, per-record sizes and orphan flags), but the
owner-filtered counts are `0`, not the claimed `2` and `1`: the constructor
never copies the `owner` column onto a record, so no record's owner equals
`"apache"`. -/
theorem c5_scenario_owner_counts :
    ((IpcsShmSegs.build sizeScenario srcScenario pidsScenario).map
      (fun r => (r.count_of_all_sems none, r.count_of_all_sems (some "apache"),
        r.count_of_orphan_sems none, r.count_of_orphan_sems (some "apache"),
        r.orphan_sems none))) = .ok (3, 0, 2, 0, ["65536", "65538"]) ∧
    ((IpcsShmSegs.build sizeScenario srcScenario pidsScenario).map
      (fun r => ((r.get_sem "65536").map (fun rec => (rec.bytes, rec.is_orphan)),
        (r.get_sem "65537").map (fun rec => (rec.bytes, rec.is_orphan)),
        (r.get_sem "65538").map (fun rec => (rec.bytes, rec.is_orphan))))) =
    .ok (some (1024, true), some (0, false), some (0, true)) :=
  ⟨by decide, by decide⟩

/-- C6: `get_sem` is total on any registry value: it returns `None` exactly
for identifiers not in the keyed set, and for a known identifier it returns
the record stored under it. -/
theorem c6_get_sem_total (r : IpcsShmSegs) (semid : String) :
    (r.get_sem semid = none ↔ semid ∉ dictKeys r._all_sems) ∧
    (∀ rec, r.get_sem semid = some rec → (semid, rec) ∈ r._all_sems) :=
  ⟨dictGet_none_iff _ _, fun _ h => dictGet_some_mem _ _ _ h⟩

/-- C6 witness: an unknown identifier yields an absent result on the worked
scenario's registry. -/
theorem c6_get_sem_total_witness : regScenario.get_sem "99999" = none :=
  (c6_get_sem_total regScenario "99999").1.mpr (by decide)

/-- C7: `orphan_sems()` lists the identifiers of the records classified
orphan, in process-source encounter order (the order they were appended to
the orphan view), and its length equals `count_of_orphan_sems()`. -/
theorem c7_orphan_ids_order (ipcs_m : List (String × Option String))
    (src : List ShmEntry) (pids : List String) (r : IpcsShmSegs)
    (h : IpcsShmSegs.build ipcs_m src pids = .ok r) :
    r.orphan_sems none =
      ((src.filter (fun shm =>
        decide (shm.cpid ∉ pids) && decide (shm.lpid ∉ pids))).map
          (fun shm => shm.shmid)) ∧
    (r.orphan_sems none).length = r.count_of_orphan_sems none := by
  obtain ⟨recs, hrecs, -, horph⟩ := build_ok_decomp _ _ _ _ h
  have h1 : r.orphan_sems none = r._orphan_sems.map (fun sem => sem.shmid) := by
    simp [IpcsShmSegs.orphan_sems, pyTruthy]
  have h2 : r.count_of_orphan_sems none = r._orphan_sems.length := by
    simp [IpcsShmSegs.count_of_orphan_sems, pyTruthy]
  constructor
  · rw [h1, horph]
    exact processAll_orphans _ _ _ _ hrecs
  · rw [h1, h2, List.length_map]

/-- C7 witness at the worked scenario. -/
theorem c7_orphan_ids_order_witness :
    (regScenario.orphan_sems none).length =
      regScenario.count_of_orphan_sems none :=
  (c7_orphan_ids_order sizeScenario srcScenario pidsScenario regScenario
    (by decide)).2

/-- A process source that repeats one identifier, both occurrences orphan. -/
def srcDup : List ShmEntry :=
  [ShmEntry.mk "81920" "apache" "0" "0", ShmEntry.mk "81920" "apache" "0" "0"]

/-- C8 counterexample: with a duplicated orphan identifier and the empty
string as owner (treated as no filter), `count_of_orphan_sems("") = 2`
exceeds `count_of_all_sems("") = 1`: the orphan view keeps one entry per
occurrence while the keyed set collapses duplicates, so the claimed
`countOrphans(owner) <= countAll(owner)` fails for `owner = ""`. -/
theorem c8_counterexample :
    ((IpcsShmSegs.build [] srcDup []).map
      (fun r => (r.count_of_orphan_sems (some ""),
        r.count_of_all_sems (some "")))) = .ok (2, 1) ∧ ¬ (2 ≤ 1) :=
  ⟨by decide, by decide⟩

/-- C8 as amended: `count_of_orphan_sems(owner) <= count_of_orphan_sems()`
holds for every owner, and `count_of_orphan_sems(owner) <=
count_of_all_sems(owner)` holds for every non-empty owner (the empty string
is treated as no filter, and a duplicated orphan identifier then makes the
orphan count exceed the collapsed total). -/
theorem c8_amended_monotonicity (ipcs_m : List (String × Option String))
    (src : List ShmEntry) (pids : List String) (r : IpcsShmSegs)
    (owner : String) (h : IpcsShmSegs.build ipcs_m src pids = .ok r) :
    r.count_of_orphan_sems (some owner) ≤ r.count_of_orphan_sems none ∧
    (owner ≠ "" →
      r.count_of_orphan_sems (some owner) ≤ r.count_of_all_sems (some owner)) := by
  obtain ⟨recs, hrecs, -, horph⟩ := build_ok_decomp _ _ _ _ h
  have hownone : ∀ rec ∈ r._orphan_sems, rec.owner = none := by
    intro rec hrec
    rw [horph] at hrec
    exact processAll_owner_none _ _ _ _ hrecs rec (List.mem_of_mem_filter hrec)
  have hnone : r.count_of_orphan_sems none = r._orphan_sems.length := by
    simp [IpcsShmSegs.count_of_orphan_sems, pyTruthy]
  constructor
  · rw [hnone]
    unfold IpcsShmSegs.count_of_orphan_sems
    by_cases ht : pyTruthy (some owner) = true
    · rw [if_pos ht]
      exact List.length_filter_le _ _
    · rw [if_neg ht]
  · intro ho
    have ht : pyTruthy (some owner) = true := by simp [pyTruthy, ho]
    unfold IpcsShmSegs.count_of_orphan_sems
    rw [if_pos ht]
    have hfe : r._orphan_sems.filter (fun sem => sem.owner == some owner) = [] := by
      rw [List.filter_eq_nil_iff]
      intro a ha
      rw [hownone a ha]
      simp
    rw [hfe]
    exact Nat.zero_le _

/-- C8 witness at the worked scenario with owner `"apache"`. -/
theorem c8_amended_monotonicity_witness :
    regScenario.count_of_orphan_sems (some "apache") ≤
      regScenario.count_of_orphan_sems none :=
  (c8_amended_monotonicity sizeScenario srcScenario pidsScenario regScenario
    "apache" (by decide)).1

/-- C10: passing the empty string as the owner argument is treated as no
filter by the `if owner:` truthiness test, for all three owner-filtered
queries. -/
theorem c10_empty_owner_unfiltered (r : IpcsShmSegs) :
    r.count_of_all_sems (some "") = r.count_of_all_sems none ∧
    r.count_of_orphan_sems (some "") = r.count_of_orphan_sems none ∧
    r.orphan_sems (some "") = r.orphan_sems none := by
  refine ⟨?_, ?_, ?_⟩ <;>
    simp [IpcsShmSegs.count_of_all_sems, IpcsShmSegs.count_of_orphan_sems,
      IpcsShmSegs.orphan_sems, pyTruthy]
